import Mathlib

/-!
Verification of the Stream repository's repair scripts.

Shallow embedding of the three Python sources:
  * `fix_xcode_uuid_collisions.py` (class `XcodeProjectFixer`)
  * `fix_xcode_uuid_precise.py`    (class `PreciseXcodeProjectFixer`)
  * `fix_infoplist_conflict.py`    (function `fix_infoplist_conflict`)

Strings are modelled as Lean `String` (a list of characters, matching
Python `str` for the ASCII documents these scripts process).  File I/O is
modelled by explicit state passing: a run takes the on-disk content and
returns the final on-disk content together with the trace of writes it
performed.  The `secrets` entropy source is modelled as a list of 12-byte
chunks consumed in order; a run that would loop forever waiting for fresh
entropy is modelled as `none`.
-/

set_option maxRecDepth 100000

namespace Stream2Proof

/-- Characters matched by the scripts' identifier regex class `[A-F0-9]`. -/
def isHexUp (c : Char) : Bool := ('0' ≤ c && c ≤ '9') || ('A' ≤ c && c ≤ 'F')

/-- Python `str.hex()` digit table composed with `.upper()`:
0–9 map to `'0'`–`'9'`, 10–15 map to `'A'`–`'F'`. -/
def hexDigitOf (n : Nat) : Char :=
  if n < 10 then Char.ofNat (48 + n) else Char.ofNat (55 + n)

/-- One byte rendered as two uppercase hexadecimal digits, as
`bytes.hex().upper()` renders it (`%256` keeps the model total; the
entropy source only ever produces values below 256). -/
def byteToHex (b : Nat) : List Char :=
  [hexDigitOf ((b % 256) / 16), hexDigitOf (b % 16)]

/-- `bytes.hex().upper()` over a whole byte string. -/
def bytesToHex : List Nat → List Char
  | [] => []
  | b :: bs => byteToHex b ++ bytesToHex bs

/-- `XcodeProjectFixer.generate_xcode_uuid` (and the identical
`PreciseXcodeProjectFixer.generate_xcode_uuid`): 12 random bytes rendered
as a 24-character uppercase-hex token.  The random bytes are the argument. -/
def generate_xcode_uuid (randomBytes : List Nat) : String :=
  String.mk (bytesToHex randomBytes)

/-- One step of Python `re.findall(r'[A-F0-9]{24}', content)`: does a
24-character hex token start here? -/
def hex24At (cs : List Char) : Bool :=
  (cs.take 24).length = 24 && (cs.take 24).all isHexUp

/-- Python `re.findall(r'[A-F0-9]{24}', content)`: left-to-right scan,
non-overlapping; after a match the scan resumes past its 24 characters,
otherwise it advances one character.  The fuel argument only bounds the
recursion so that it is structural (and hence kernel-computable); every
step consumes at least one character, so fuel equal to the input length
never runs out. -/
def scan24F : Nat → List Char → List (List Char)
  | 0, _ => []
  | _, [] => []
  | fuel + 1, c :: rest =>
    if hex24At (c :: rest) then
      (c :: rest).take 24 :: scan24F fuel (rest.drop 23)
    else
      scan24F fuel rest

/-- The scan of `re.findall(r'[A-F0-9]{24}', content)` with enough fuel. -/
def scan24 (cs : List Char) : List (List Char) := scan24F cs.length cs

/-- All identifier tokens of a document, in scan order, with multiplicity:
`re.findall(r'[A-F0-9]{24}', content)`. -/
def findall24 (content : String) : List String :=
  (scan24 content.data).map String.mk

/-- The literal ` = {` that follows the captured token in the definition
regex `([A-F0-9]{24}) = {`. -/
def defTail : List Char := [' ', '=', ' ', '\x7b']

/-- Python `re.findall(r'([A-F0-9]{24}) = {', content)`: the captured
24-character tokens of all definition headers; the scan resumes past the
whole 28-character match.  Fuel as in `scan24F`. -/
def scanDefsF : Nat → List Char → List (List Char)
  | 0, _ => []
  | _, [] => []
  | fuel + 1, c :: rest =>
    if hex24At (c :: rest) && defTail.isPrefixOf ((c :: rest).drop 24) then
      (c :: rest).take 24 :: scanDefsF fuel (rest.drop 27)
    else
      scanDefsF fuel rest

/-- The scan of `re.findall(r'([A-F0-9]{24}) = {', content)` with enough
fuel. -/
def scanDefs (cs : List Char) : List (List Char) := scanDefsF cs.length cs

/-- The tokens of all object-definition headers:
`re.findall(r'([A-F0-9]{24}) = {', content)`. -/
def findallDefs (content : String) : List String :=
  (scanDefs content.data).map String.mk

/-- `XcodeProjectFixer.detect_collisions`: count every token's occurrences
and keep those appearing more than twice, each with its count. -/
def detect_collisions (content : String) : List (String × Nat) :=
  (findall24 content).dedup.filterMap fun u =>
    if 2 < (findall24 content).count u then some (u, (findall24 content).count u)
    else none

/-- Python `sub in s` (substring containment, `str.__contains__`). -/
def pyContainsL (sub : List Char) : List Char → Bool
  | [] => sub.isPrefixOf []
  | c :: t => sub.isPrefixOf (c :: t) || pyContainsL sub t

/-- Python `s.replace(old, new)`: replace every non-overlapping occurrence,
scanning left to right.  An empty `old` inserts `new` before every
character and at the end, as in Python.  Fuel as in `scan24F` (each step
consumes at least one character; exhausted fuel returns the remainder
unchanged and is never reached from `pyReplaceL`). -/
def pyReplaceF : Nat → List Char → List Char → List Char → List Char
  | 0, _, _, s => s
  | _ + 1, old, new, [] => if old = [] then new else []
  | fuel + 1, old, new, c :: t =>
    if old = [] then new ++ c :: pyReplaceF fuel old new t
    else if old.isPrefixOf (c :: t) then
      new ++ pyReplaceF fuel old new ((c :: t).drop old.length)
    else c :: pyReplaceF fuel old new t

/-- Python `s.replace(old, new)` with enough fuel. -/
def pyReplaceL (old new s : List Char) : List Char :=
  pyReplaceF (s.length + 1) old new s

/-- Python `s.replace(old, new, 1)`: replace only the first occurrence. -/
def pyReplace1L (old new : List Char) : List Char → List Char
  | [] => if old.isPrefixOf [] then new else []
  | c :: t =>
    if old.isPrefixOf (c :: t) then new ++ (c :: t).drop old.length
    else c :: pyReplace1L old new t

/-- Python `s.startswith(pre)`. -/
def pyStartsWith (s pre : String) : Bool := pre.data.isPrefixOf s.data

/-- `XcodeProjectFixer.validate_uuid_uniqueness`: passes iff the number of
token occurrences equals the number of distinct tokens, i.e. iff no
24-character token occurs twice anywhere in the document. -/
def validate_uuid_uniqueness (content : String) : Bool :=
  (findall24 content).length == (findall24 content).dedup.length

/-- `XcodeProjectFixer.validate_object_references`: every token occurrence
(`re.findall(r'[A-F0-9]{24}', ...)`) must also appear as a definition
header (`re.findall(r'([A-F0-9]{24}) = {', ...)`); the orphaned set is
their difference. -/
def validate_object_references (content : String) : Bool :=
  ((findall24 content).dedup.filter
    (fun u => !((findallDefs content).contains u))).isEmpty

/-- The six required section names of
`XcodeProjectFixer.validate_project_structure`. -/
def requiredSections : List String :=
  ["PBXBuildFile", "PBXFileReference", "PBXGroup", "PBXNativeTarget",
   "PBXProject", "PBXSourcesBuildPhase"]

/-- `XcodeProjectFixer.validate_project_structure`: every required section's
`/* Begin NAME section */` marker must occur in the document. -/
def validate_project_structure (content : String) : Bool :=
  requiredSections.all fun s =>
    pyContainsL ("/* Begin " ++ s ++ " section */").data content.data

/-- The header literal checked by `validate_xcode_format`. -/
def xcodeHeader : String := "// !$*UTF8*$!"

/-- `XcodeProjectFixer.validate_xcode_format`: header prefix, balanced
braces, balanced parentheses, in that order. -/
def validate_xcode_format (content : String) : Bool :=
  if pyStartsWith content xcodeHeader = false then false
  else if content.data.count '\x7b' ≠ content.data.count '\x7d' then false
  else if content.data.count '(' ≠ content.data.count ')' then false
  else true

/-- All four validator checks, in the order `fix_project` runs them; the
commit branch requires every one of them. -/
def allChecksPass (content : String) : Bool :=
  validate_uuid_uniqueness content && validate_object_references content &&
  validate_project_structure content && validate_xcode_format content

/-- Loop body of `XcodeProjectFixer.generate_unique_uuid_set`: draw the next
12-byte chunk of entropy, keep the token if it is new with respect to both
`existing` and the tokens accumulated so far.  `none` models the Python
`while` loop spinning forever because no acceptable entropy remains. -/
def genGo (count : Nat) (existing : List String) (acc : List String) :
    List (List Nat) → Option (List String)
  | [] => if count ≤ acc.length then some acc.reverse else none
  | b :: rest =>
    if count ≤ acc.length then some acc.reverse
    else
      let u := generate_xcode_uuid b
      if u ∉ existing ∧ u ∉ acc then genGo count existing (u :: acc) rest
      else genGo count existing acc rest

/-- `XcodeProjectFixer.generate_unique_uuid_set(count, existing_uuids)`. -/
def generate_unique_uuid_set (count : Nat) (existing : List String)
    (entropy : List (List Nat)) : Option (List String) :=
  genGo count existing [] entropy

/-- The ten keys of `XcodeProjectFixer.known_collisions`, in the source's
insertion order. -/
def knownCollisionOlds : List String :=
  ["A1000001000000000000001A", "A1000001000000000000008A",
   "A1000001000000000000007A", "A1000001000000000000006E",
   "A1000001000000000000006A", "A1000001000000000000005A",
   "A1000001000000000000003E", "A1000001000000000000003A",
   "A1000001000000000000002E", "A1000001000000000000002A"]

/-- `XcodeProjectFixer.generate_replacement_uuids`: mint one fresh token per
`known_collisions` entry, avoiding every token already occurring anywhere
in the document, and pair the old identifiers with the fresh ones.  The
resulting association list stands for the source's `collision_map` dict
(only the `new_group_uuid` field of each record is ever read back). -/
def generate_replacement_uuids (content : String)
    (entropy : List (List Nat)) : Option (List (String × String)) :=
  match generate_unique_uuid_set knownCollisionOlds.length (findall24 content) entropy with
  | none => none
  | some news => some (knownCollisionOlds.zip news)

/-- The literal `isa = PBXGroup` inside the group-definition regex. -/
def isaGroupLit : List Char := ['i','s','a',' ','=',' ','P','B','X','G','r','o','u','p']

/-- Does `lit` occur in the tail of `cs` (position ≥ the current one) with at
least one character left after it?  Mirrors the two mandatory `[^}]+`
groups around `isa = PBXGroup` in the group-definition regex. -/
def occursWithTail (lit : List Char) : List Char → Bool
  | [] => false
  | c :: t => (lit.isPrefixOf (c :: t) && decide (lit.length < (c :: t).length))
      || occursWithTail lit t

/-- Match of `re.search(f"({old} = {{[^}}]+isa = PBXGroup[^}}]+}})", content)`
at the current position: the literal header `old = {`, then the maximal
`}`-free body segment, which must contain `isa = PBXGroup` with at least one
body character on each side, then the closing `}`.  Returns the whole
matched text (= capture group 1). -/
def groupDefAt (old : List Char) (cs : List Char) : Option (List Char) :=
  let head := old ++ defTail
  if head.isPrefixOf cs then
    let rest := cs.drop head.length
    let body := rest.takeWhile (fun c => c ≠ '\x7d')
    if body.length < rest.length &&
        (match body with
         | [] => false
         | _ :: t => occursWithTail isaGroupLit t) then
      some (head ++ body ++ ['\x7d'])
    else none
  else none

/-- `re.search` for the group-definition pattern: the leftmost position at
which it matches. -/
def searchGroupDef (old : List Char) : List Char → Option (List Char)
  | [] => none
  | c :: rest =>
    match groupDefAt old (c :: rest) with
    | some m => some m
    | none => searchGroupDef old rest

/-- `XcodeProjectFixer.fix_group_definitions`: for each collision-map entry,
find the group definition of the old identifier, re-key its first token
(`match.group(1).replace(old, new, 1)`) and substitute the rewritten
definition for every occurrence of the matched text. -/
def fix_group_definitions (cmap : List (String × String)) (content : String) : String :=
  cmap.foldl
    (fun cont p =>
      match searchGroupDef p.1.data cont.data with
      | some m => String.mk (pyReplaceL m (pyReplace1L p.1.data p.2.data m) cont.data)
      | none => cont)
    content

/-- The literal `children = (` opening a children array. -/
def childrenHead : List Char :=
  ['c','h','i','l','d','r','e','n',' ','=',' ','(']

/-- Split `t` around the last occurrence of `old`:
`lastOccSplit t old = some (g1, g2)` with `t = g1 ++ old ++ g2` and no later
occurrence.  This is the split the greedy first group `[^)]*` of the
children regex produces by backtracking. -/
def lastOccSplit : List Char → List Char → Option (List Char × List Char)
  | [], old => if old.isPrefixOf [] then some ([], []) else none
  | c :: t, old =>
    match lastOccSplit t old with
    | some (g1, g2) => some (c :: g1, g2)
    | none =>
      if old.isPrefixOf (c :: t) then some ([], (c :: t).drop old.length) else none

/-- Match of the children regex `(children = \([^)]*){old}([^)]*\))` at the
current position: the literal `children = (`, then the maximal `)`-free
segment, which must contain `old` (the greedy group puts `old` at its last
occurrence), then `)`.  Returns the two capture groups exactly as the
pattern delimits them — group 1 includes the leading `children = (` and
group 2 includes the trailing `)` — plus the total match length. -/
def childrenAt (old : List Char) (cs : List Char) : Option (List Char × List Char × Nat) :=
  if childrenHead.isPrefixOf cs then
    let rest := cs.drop childrenHead.length
    let seg := rest.takeWhile (fun c => c ≠ ')')
    if seg.length < rest.length then
      match lastOccSplit seg old with
      | some (g1, g2) =>
        some (childrenHead ++ g1, g2 ++ [')'], childrenHead.length + seg.length + 1)
      | none => none
    else none
  else none

/-- `re.findall` for the children pattern: all non-overlapping matches, left
to right, each match's `(group1, group2)` pair.  Fuel as in `scan24F`. -/
def findallChildrenF (old : List Char) : Nat → List Char → List (List Char × List Char)
  | 0, _ => []
  | _, [] => []
  | fuel + 1, c :: rest =>
    match childrenAt old (c :: rest) with
    | some (g1, g2, len) => (g1, g2) :: findallChildrenF old fuel (rest.drop (len - 1))
    | none => findallChildrenF old fuel rest

/-- `re.findall` for the children pattern with enough fuel. -/
def findallChildren (old : List Char) (cs : List Char) : List (List Char × List Char) :=
  findallChildrenF old cs.length cs

/-- `XcodeProjectFixer.fix_parent_references`: for each collision-map entry,
collect every children-array match, then substitute
`f"children = ({match[0]}{old_uuid}{match[1]})"` by the same text with the
new identifier.  Note the source re-wraps the capture groups in a second
`children = ( … )`, although group 1 already starts with `children = (` and
group 2 already ends with `)`; the doubled wrapper text does not occur in
the document, so each of these `str.replace` calls is a silent no-op (the
model reproduces that behaviour verbatim). -/
def fix_parent_references (cmap : List (String × String)) (content : String) : String :=
  cmap.foldl
    (fun cont p =>
      let ms := findallChildren p.1.data cont.data
      ms.foldl
        (fun cont2 g =>
          let oldChildren := childrenHead ++ g.1 ++ p.1.data ++ g.2 ++ [')']
          let newChildren := childrenHead ++ g.1 ++ p.2.data ++ g.2 ++ [')']
          String.mk (pyReplaceL oldChildren newChildren cont2.data))
        cont)
    content

/-- Outcome of one `XcodeProjectFixer.fix_project` run: the returned flag,
the final on-disk content of `project.pbxproj`, and the contents written to
it, in order (`save_project` is modelled as an always-successful write, so
the write trace records both commits and rollback writes). -/
structure RunResult where
  success : Bool
  disk : String
  writes : List String
deriving DecidableEq, Repr

/-- `XcodeProjectFixer.fix_project`, state-passing model.  `disk` is the
on-disk content at `load_project` time; `entropy` feeds
`generate_unique_uuid_set`.  Phases follow the source: load, detect (early
return when nothing is found), generate replacements, rewrite group
definitions then parent references, run the four validators (each failure
calls `rollback`, which writes the original snapshot back), then save.
`none` models the non-terminating entropy loop. -/
def fix_project (disk : String) (entropy : List (List Nat)) : Option RunResult :=
  let content := disk
  let original := content
  if (detect_collisions content).isEmpty then
    some ⟨true, disk, []⟩
  else
    match generate_replacement_uuids content entropy with
    | none => none
    | some cmap =>
      let rewritten := fix_parent_references cmap (fix_group_definitions cmap content)
      if validate_uuid_uniqueness rewritten then
        if validate_object_references rewritten then
          if validate_project_structure rewritten then
            if validate_xcode_format rewritten then
              some ⟨true, rewritten, [rewritten]⟩
            else some ⟨false, original, [original]⟩
          else some ⟨false, original, [original]⟩
        else some ⟨false, original, [original]⟩
      else some ⟨false, original, [original]⟩

/-- Literal removed by step 1 of `fix_infoplist_conflict` (the
`PBXBuildFile` entry for `Info.plist`). -/
def plistBuildFileLine : String :=
  "0DD18F0E2E7FBB1900A893D7 /* Info.plist in Resources */ = \x7bisa = PBXBuildFile; fileRef = 0DD18F062E7FBB1900A893D7 /* Info.plist */; \x7d;"

/-- Literal removed by step 2 of `fix_infoplist_conflict` (the Resources
build-phase entry). -/
def plistResourceLine : String :=
  "0DD18F0E2E7FBB1900A893D7 /* Info.plist in Resources */,"

/-- Old text of step 3 of `fix_infoplist_conflict`. -/
def genPlistYes : String := "GENERATE_INFOPLIST_FILE = YES;"

/-- New text of step 3 (and old text of step 4) of `fix_infoplist_conflict`. -/
def genPlistNo : String := "GENERATE_INFOPLIST_FILE = NO;"

/-- New text of step 4 of `fix_infoplist_conflict`: the setting line plus the
inserted `INFOPLIST_FILE` line. -/
def genPlistNoWithFile : String :=
  "GENERATE_INFOPLIST_FILE = NO;\n\t\t\t\tINFOPLIST_FILE = StreamApp/Info.plist;"

/-- Step 1 of `fix_infoplist_conflict`: remove the `PBXBuildFile` line if
present (guarded by `if line in content`). -/
def plistStep1 (t : String) : String :=
  if pyContainsL plistBuildFileLine.data t.data then
    String.mk (pyReplaceL plistBuildFileLine.data [] t.data)
  else t

/-- Step 2 of `fix_infoplist_conflict`: remove the Resources build-phase
line if present. -/
def plistStep2 (t : String) : String :=
  if pyContainsL plistResourceLine.data t.data then
    String.mk (pyReplaceL plistResourceLine.data [] t.data)
  else t

/-- Step 3 of `fix_infoplist_conflict`: unguarded
`content.replace("GENERATE_INFOPLIST_FILE = YES;", "GENERATE_INFOPLIST_FILE = NO;")`. -/
def plistStep3 (t : String) : String :=
  String.mk (pyReplaceL genPlistYes.data genPlistNo.data t.data)

/-- Step 4 of `fix_infoplist_conflict`: unguarded replacement appending the
`INFOPLIST_FILE` setting after every `GENERATE_INFOPLIST_FILE = NO;`. -/
def plistStep4 (t : String) : String :=
  String.mk (pyReplaceL genPlistNo.data genPlistNoWithFile.data t.data)

/-- The whole edit pipeline of `fix_infoplist_conflict` (between the read
and the write of `project.pbxproj`). -/
def fix_infoplist_conflict (t : String) : String :=
  plistStep4 (plistStep3 (plistStep2 (plistStep1 t)))

/-! ### Concrete documents and entropy streams used by witnesses,
counterexamples and code evaluations. -/

/-- A 24-character token: 24 copies of `A`. -/
def tokA : String := String.mk (List.replicate 24 'A')

/-- A document on which validation fails: `tokA` occurs three times (a
collision), no group definition or children array is present, so the
rewrite leaves the text unchanged and `validate_uuid_uniqueness` rejects
it. -/
def collidingDoc : String := "zzz " ++ tokA ++ " " ++ tokA ++ " " ++ tokA

/-- Ten 12-byte entropy chunks yielding the distinct tokens
`000000000000000000000000` … `000000000000000000000009`. -/
def plainEntropy : List (List Nat) := (List.range 10).map fun k => List.replicate 11 0 ++ [k]

/-- A document in which the identifier `tokA` has exactly one defining
occurrence plus one reference occurrence in a children array. -/
def definedOnceDoc : String :=
  "// !$*UTF8*$!\n" ++ tokA ++ " = \x7b\n\x7d\nchildren = (" ++ tokA ++ ")"

/-- A well-formed document: header, the six required section markers,
balanced delimiters, and a single identifier occurring exactly once, at its
definition header.  Every validator check passes on it. -/
def repairedDoc : String :=
  "// !$*UTF8*$!\n/* Begin PBXBuildFile section */\n/* Begin PBXFileReference section */\n/* Begin PBXGroup section */\n/* Begin PBXNativeTarget section */\n/* Begin PBXProject section */\n/* Begin PBXSourcesBuildPhase section */\n"
  ++ String.mk (List.replicate 24 'B') ++ " = \x7bz\x7d;\n"

/-- A document containing every `known_collisions` key. -/
def allOldsDoc : String := String.intercalate " " knownCollisionOlds

/-- Ten entropy chunks minting `0102030405060708090A0B00` …
`0102030405060708090A0B09`, none of which occurs in `allOldsDoc`. -/
def freshEntropy : List (List Nat) :=
  (List.range 10).map fun k => [1,2,3,4,5,6,7,8,9,10,11,k]

/-- The fresh tokens `freshEntropy` mints, in insertion order. -/
def freshNews : List String :=
  ["0102030405060708090A0B00", "0102030405060708090A0B01",
   "0102030405060708090A0B02", "0102030405060708090A0B03",
   "0102030405060708090A0B04", "0102030405060708090A0B05",
   "0102030405060708090A0B06", "0102030405060708090A0B07",
   "0102030405060708090A0B08", "0102030405060708090A0B09"]

/-- Entropy whose first chunk hexes to the first `known_collisions` key
`A1000001000000000000001A` (161 = 0xA1, 26 = 0x1A), followed by nine plain
chunks. -/
def collidingEntropy : List (List Nat) :=
  [161,0,0,1,0,0,0,0,0,0,0,26] :: (List.range 9).map fun k => List.replicate 11 0 ++ [k + 1]

/-- Entropy for the `generate_unique_uuid_set` witness: the first chunk
mints a token that is already taken, the next two mint fresh ones. -/
def mintEntropy : List (List Nat) :=
  [List.replicate 12 0, List.replicate 11 0 ++ [1], List.replicate 11 0 ++ [2]]

/-! ### Supporting lemmas -/

theorem mk_data (s : String) : String.mk s.data = s := by
  cases s
  rfl

theorem uniq_nodup (c : String) (h : validate_uuid_uniqueness c = true) :
    (findall24 c).Nodup := by
  unfold validate_uuid_uniqueness at h
  have hlen : (findall24 c).length = (findall24 c).dedup.length := by
    rwa [beq_iff_eq] at h
  have heq : (findall24 c).dedup = findall24 c :=
    (List.dedup_sublist (findall24 c)).eq_of_length hlen.symm
  have := List.nodup_dedup (findall24 c)
  rwa [heq] at this

theorem uniq_detect_nil (c : String) (h : validate_uuid_uniqueness c = true) :
    detect_collisions c = [] := by
  have hn := uniq_nodup c h
  unfold detect_collisions
  rw [List.filterMap_eq_nil_iff]
  intro u _
  have hc : (findall24 c).count u ≤ 1 := List.nodup_iff_count_le_one.mp hn u
  rw [if_neg]
  omega

theorem format_header (c : String) (h : validate_xcode_format c = true) :
    pyStartsWith c xcodeHeader = true := by
  by_cases hs : pyStartsWith c xcodeHeader = true
  · exact hs
  · have hf : pyStartsWith c xcodeHeader = false := by
      revert hs
      cases pyStartsWith c xcodeHeader <;> simp
    rw [validate_xcode_format, if_pos hf] at h
    exact absurd h (by simp)

theorem allChecksPass_split (c : String) (h : allChecksPass c = true) :
    validate_uuid_uniqueness c = true ∧ validate_object_references c = true ∧
    validate_project_structure c = true ∧ validate_xcode_format c = true := by
  unfold allChecksPass at h
  simp only [Bool.and_eq_true] at h
  exact ⟨h.1.1.1, h.1.1.2, h.1.2, h.2⟩

/-- Every terminating `fix_project` run ends in one of exactly two disk
states: the original content (no-collision early return or rollback), or a
rewritten document on which all four validator checks passed (the commit). -/
theorem fix_project_cases (disk : String) (entropy : List (List Nat)) (r : RunResult)
    (h : fix_project disk entropy = some r) :
    (r = ⟨true, disk, []⟩ ∧ (detect_collisions disk).isEmpty = true) ∨
    (r = ⟨false, disk, [disk]⟩) ∨
    (r.success = true ∧ r.writes = [r.disk] ∧ allChecksPass r.disk = true) := by
  unfold fix_project at h
  simp only [] at h
  split at h
  · left
    cases h
    exact ⟨rfl, by assumption⟩
  · split at h
    · cases h
    · split at h
      · split at h
        · split at h
          · split at h
            · right; right
              cases h
              refine ⟨rfl, rfl, ?_⟩
              unfold allChecksPass
              simp only [Bool.and_eq_true]
              exact ⟨⟨⟨by assumption, by assumption⟩, by assumption⟩, by assumption⟩
            · right; left; cases h; rfl
          · right; left; cases h; rfl
        · right; left; cases h; rfl
      · right; left; cases h; rfl

theorem bytesToHex_length (bs : List Nat) : (bytesToHex bs).length = 2 * bs.length := by
  induction bs with
  | nil => rfl
  | cons b t ih =>
    simp only [bytesToHex, byteToHex, List.length_append, List.length_cons,
      List.length_nil, ih]
    omega

theorem hexDigitOf_hex (n : Nat) (h : n < 16) : isHexUp (hexDigitOf n) = true := by
  interval_cases n <;> decide

theorem bytesToHex_hex (bs : List Nat) : (bytesToHex bs).all isHexUp = true := by
  induction bs with
  | nil => rfl
  | cons b t ih =>
    have h1 : b % 256 < 256 := Nat.mod_lt _ (by norm_num)
    have h2 : (b % 256) / 16 < 16 := by omega
    have h3 : b % 16 < 16 := Nat.mod_lt _ (by norm_num)
    simp only [bytesToHex, byteToHex, List.all_append, List.all_cons, List.all_nil,
      Bool.and_eq_true]
    exact ⟨⟨hexDigitOf_hex _ h2, hexDigitOf_hex _ h3, trivial⟩, ih⟩

theorem generate_uuid_shape (b : List Nat) (hb : b.length = 12) :
    (generate_xcode_uuid b).length = 24 ∧ (generate_xcode_uuid b).data.all isHexUp = true := by
  constructor
  · have : (generate_xcode_uuid b).length = (bytesToHex b).length := rfl
    rw [this, bytesToHex_length, hb]
  · exact bytesToHex_hex b

/-- Invariant proof for the `generate_unique_uuid_set` loop: a successful
run returns exactly `count` pairwise-distinct tokens, none in `existing`,
all satisfying whatever property `P` every minted token satisfies. -/
theorem genGo_spec (P : String → Prop) (count : Nat) (existing : List String) :
    ∀ (entropy : List (List Nat)) (acc res : List String),
      genGo count existing acc entropy = some res →
      acc.Nodup → (∀ u ∈ acc, u ∉ existing ∧ P u) → acc.length ≤ count →
      (∀ b ∈ entropy, P (generate_xcode_uuid b)) →
      res.length = count ∧ res.Nodup ∧ ∀ u ∈ res, u ∉ existing ∧ P u := by
  intro entropy
  induction entropy with
  | nil =>
    intro acc res h hn hmem hlen _
    unfold genGo at h
    split at h
    · cases h
      refine ⟨?_, ?_, ?_⟩
      · rw [List.length_reverse]; omega
      · exact List.nodup_reverse.mpr hn
      · intro u hu; exact hmem u (List.mem_reverse.mp hu)
    · cases h
  | cons b rest ih =>
    intro acc res h hn hmem hlen hent
    unfold genGo at h
    split at h
    · cases h
      refine ⟨?_, ?_, ?_⟩
      · rw [List.length_reverse]; omega
      · exact List.nodup_reverse.mpr hn
      · intro u hu; exact hmem u (List.mem_reverse.mp hu)
    · rename_i hgt
      simp only [] at h
      split at h
      · rename_i hfresh
        refine ih (generate_xcode_uuid b :: acc) res h ?_ ?_ ?_ ?_
        · exact List.nodup_cons.mpr ⟨hfresh.2, hn⟩
        · intro u hu
          rcases List.mem_cons.mp hu with hu | hu
          · subst hu
            exact ⟨hfresh.1, hent b (List.mem_cons_self b rest)⟩
          · exact hmem u hu
        · simp only [List.length_cons]; omega
        · intro b' hb'; exact hent b' (List.mem_cons_of_mem _ hb')
      · exact ih acc res h hn hmem hlen (fun b' hb' => hent b' (List.mem_cons_of_mem _ hb'))

theorem knownCollisionOlds_nodup : knownCollisionOlds.Nodup := by decide

theorem contains_mem (l : List String) (u : String) : l.contains u = true ↔ u ∈ l := by
  induction l with
  | nil => simp [List.contains]
  | cons a t ih =>
    simp only [List.contains] at ih ⊢
    rw [List.elem_cons]
    constructor
    · intro h
      split at h
      · rename_i hb
        exact List.mem_cons.mpr (Or.inl (beq_iff_eq.mp hb))
      · exact List.mem_cons.mpr (Or.inr (ih.mp h))
    · intro h
      rcases List.mem_cons.mp h with h | h
      · split
        · rfl
        · rename_i hb
          exact absurd h (by simpa using hb)
      · split
        · rfl
        · exact ih.mpr h

/-- With enough fuel or not, the Python `replace` scan leaves a string
containing no occurrence of `old` unchanged. -/
theorem pyReplaceF_id (old new : List Char) :
    ∀ (fuel : Nat) (s : List Char), pyContainsL old s = false →
      pyReplaceF fuel old new s = s := by
  intro fuel
  induction fuel with
  | zero => intro s _; rfl
  | succ f ih =>
    intro s h
    match s with
    | [] =>
      unfold pyContainsL at h
      unfold pyReplaceF
      rw [if_neg]
      intro he
      rw [he] at h
      simp [List.isPrefixOf] at h
    | c :: t =>
      unfold pyContainsL at h
      rw [Bool.or_eq_false_iff] at h
      obtain ⟨h1, h2⟩ := h
      unfold pyReplaceF
      rw [if_neg, if_neg, ih t h2]
      · simp [h1]
      · intro he
        rw [he] at h1
        simp [List.isPrefixOf] at h1

/-- `str.replace` is the identity on any string not containing the old
text. -/
theorem pyReplaceL_id (old new s : List Char) (h : pyContainsL old s = false) :
    pyReplaceL old new s = s :=
  pyReplaceF_id old new (s.length + 1) s h

/-! ### Claim theorems -/

/-- Claim C1: atomicity of the repair run.  Every terminating
`fix_project` run leaves the persistent artifact either byte-identical to
its pre-run content (in particular whenever any of the four validation
checks fails, since every failure triggers `rollback`, which writes the
original snapshot back), or holding a fully rewritten document on which
every validation check passed; no partially rewritten, unvalidated
document is ever the final on-disk state. -/
theorem fixProject_atomic (disk : String) (entropy : List (List Nat)) (r : RunResult)
    (h : fix_project disk entropy = some r) :
    r.disk = disk ∨ (r.success = true ∧ allChecksPass r.disk = true) := by
  rcases fix_project_cases disk entropy r h with ⟨hr, _⟩ | hr | ⟨hs, _, hv⟩
  · left; rw [hr]
  · left; rw [hr]
  · right; exact ⟨hs, hv⟩

/-- Witness for C1: a concrete terminating run (an empty document, where
the detector finds nothing), with the hypothesis discharged by
evaluation. -/
theorem fixProject_atomic_witness :
    (RunResult.mk true "" []).disk = "" ∨
    ((RunResult.mk true "" []).success = true ∧
      allChecksPass (RunResult.mk true "" []).disk = true) :=
  fixProject_atomic "" [] ⟨true, "", []⟩ (by decide)

/-- Claim C3: idempotence.  On any document on which all four validator
checks pass — which is exactly what `fix_project` certifies about a
document before committing it — a repair run finds no collisions, performs
no write, returns success and leaves the document bytes unchanged. -/
theorem fixProject_idempotent (d : String) (entropy : List (List Nat))
    (h : allChecksPass d = true) :
    detect_collisions d = [] ∧ fix_project d entropy = some ⟨true, d, []⟩ := by
  have hu := (allChecksPass_split d h).1
  have hdet := uniq_detect_nil d hu
  refine ⟨hdet, ?_⟩
  unfold fix_project
  simp only [hdet, List.isEmpty_nil, if_pos]

/-- Witness for C3: a concrete well-formed document on which every check
passes; the second run is evaluated to be the identity. -/
theorem fixProject_idempotent_witness :
    detect_collisions repairedDoc = [] ∧
    fix_project repairedDoc [] = some ⟨true, repairedDoc, []⟩ :=
  fixProject_idempotent repairedDoc [] (by decide)

/-- Claim C4 (amended): when validation fails before any save, `rollback`
does not leave the file untouched — it performs exactly one write, whose
content is the original snapshot, so the final disk content equals the
pre-run content byte for byte. -/
theorem rollback_single_write (disk : String) (entropy : List (List Nat)) (r : RunResult)
    (h : fix_project disk entropy = some r) (hf : r.success = false) :
    r.writes = [disk] ∧ r.disk = disk := by
  rcases fix_project_cases disk entropy r h with ⟨hr, _⟩ | hr | ⟨hs, _, _⟩
  · rw [hr] at hf; cases hf
  · rw [hr]; exact ⟨rfl, rfl⟩
  · rw [hs] at hf; cases hf

/-- Witness for C4's amended statement: a concrete failing run (three
occurrences of one token, rewrite changes nothing, uniqueness validation
fails, rollback writes the original snapshot once). -/
theorem rollback_single_write_witness :
    (RunResult.mk false collidingDoc [collidingDoc]).writes = [collidingDoc] ∧
    (RunResult.mk false collidingDoc [collidingDoc]).disk = collidingDoc :=
  rollback_single_write collidingDoc plainEntropy ⟨false, collidingDoc, [collidingDoc]⟩
    (by decide) rfl

/-- Counterexample for C4 as stated: a run in which validation fails
before any save, yet the process performs a write (the rollback write of
the original snapshot), refuting "zero writes". -/
theorem rollback_writes_counterexample :
    fix_project collidingDoc plainEntropy =
      some ⟨false, collidingDoc, [collidingDoc]⟩ ∧
    [collidingDoc] ≠ ([] : List String) := by
  constructor
  · decide
  · decide

/-- Claim C10: the format check rejects any document whose text does not
begin with the literal header `// !$*UTF8*$!` (regardless of delimiter
balance, which is only tested afterwards), and consequently every document
a terminating successful run leaves on disk either is the untouched input
or begins with that header. -/
theorem format_requires_header :
    (∀ c : String, pyStartsWith c xcodeHeader = false → validate_xcode_format c = false) ∧
    (∀ (disk : String) (entropy : List (List Nat)) (r : RunResult),
      fix_project disk entropy = some r → r.success = true →
      r.disk = disk ∨ pyStartsWith r.disk xcodeHeader = true) := by
  constructor
  · intro c hc
    unfold validate_xcode_format
    rw [if_pos hc]
  · intro disk entropy r h _
    rcases fix_project_cases disk entropy r h with ⟨hr, _⟩ | hr | ⟨_, _, hv⟩
    · left; rw [hr]
    · left; rw [hr]
    · right
      exact format_header r.disk (allChecksPass_split r.disk hv).2.2.2

/-- Claim C2 (code evaluation at the failing input): a document whose one
identifier has a unique defining occurrence plus a single reference site.
The claim (and the spec's uniqueness invariant) say the uniqueness check
passes on such a document; `validate_uuid_uniqueness` rejects it, because
it demands that every token occur exactly once in the whole text — in
direct tension with `detect_collisions`, whose own threshold treats up to
two occurrences (definition + reference) as legitimate. -/
theorem uniqueness_check_rejects_references :
    validate_uuid_uniqueness definedOnceDoc = false ∧
    findallDefs definedOnceDoc = [tokA] ∧
    (findall24 definedOnceDoc).count tokA = 2 := by
  refine ⟨by decide, by decide, by decide⟩

/-- Claim C5: the referential-closure check passes exactly when every
identifier token occurring in the document also occurs as a definition
header; equivalently, it fails exactly when some occurring token has no
definition header anywhere. -/
theorem object_references_iff (content : String) :
    validate_object_references content = true ↔
      ∀ u ∈ findall24 content, u ∈ findallDefs content := by
  unfold validate_object_references
  rw [List.isEmpty_iff, List.filter_eq_nil_iff]
  constructor
  · intro h u hu
    have h2 := h u (List.mem_dedup.mpr hu)
    have h3 : (findallDefs content).contains u = true := by
      revert h2
      cases (findallDefs content).contains u <;> simp
    exact (contains_mem _ _).mp h3
  · intro h u hu
    have h3 := (contains_mem (findallDefs content) u).mpr (h u (List.mem_dedup.mp hu))
    simp only [h3, Bool.not_true, Bool.false_eq_true, not_false_eq_true]

/-- Claim C6 (amended): every replacement mapping the engine produces is
one-to-one (the old identifiers are pairwise distinct and so are the new
ones), every new identifier avoids every token occurring anywhere in the
document; and — provided each old identifier actually occurs in the
document, as it does in the intended use where the olds are collisions
found in it — no new identifier equals any old one. -/
theorem replacement_injective (content : String) (entropy : List (List Nat))
    (cmap : List (String × String))
    (h : generate_replacement_uuids content entropy = some cmap) :
    ((cmap.map Prod.fst).Nodup ∧ (cmap.map Prod.snd).Nodup) ∧
    (∀ p ∈ cmap, p.2 ∉ findall24 content) ∧
    ((∀ old ∈ knownCollisionOlds, old ∈ findall24 content) →
      ∀ p ∈ cmap, ∀ q ∈ cmap, p.2 ≠ q.1) := by
  unfold generate_replacement_uuids at h
  split at h
  · cases h
  · rename_i news hg
    have hs := genGo_spec (fun _ => True) knownCollisionOlds.length
      (findall24 content) entropy [] news hg List.nodup_nil (by simp) (by simp)
      (fun _ _ => trivial)
    cases h
    have hlen : knownCollisionOlds.length ≤ news.length := by omega
    have hlen2 : news.length ≤ knownCollisionOlds.length := by omega
    have hfst : (knownCollisionOlds.zip news).map Prod.fst = knownCollisionOlds :=
      List.map_fst_zip _ _ hlen
    have hsnd : (knownCollisionOlds.zip news).map Prod.snd = news :=
      List.map_snd_zip _ _ hlen2
    refine ⟨⟨?_, ?_⟩, ?_, ?_⟩
    · rw [hfst]; exact knownCollisionOlds_nodup
    · rw [hsnd]; exact hs.2.1
    · intro p hp
      exact (hs.2.2 p.2 (List.of_mem_zip hp).2).1
    · intro holds p hp q hq heq
      have hnew : p.2 ∉ findall24 content := (hs.2.2 p.2 (List.of_mem_zip hp).2).1
      have hold : q.1 ∈ findall24 content := holds q.1 (List.of_mem_zip hq).1
      rw [heq] at hnew
      exact hnew hold

/-- Witness for C6: a document containing all ten old identifiers and an
entropy stream minting ten fresh tokens; the first fresh token avoids the
document and differs from the old identifier it is paired with. -/
theorem replacement_injective_witness :
    ("0102030405060708090A0B00" : String) ∉ findall24 allOldsDoc ∧
    ("0102030405060708090A0B00" : String) ≠ "A1000001000000000000001A" := by
  have h := replacement_injective allOldsDoc freshEntropy
    (knownCollisionOlds.zip freshNews) (by decide)
  exact ⟨h.2.1 ("A1000001000000000000001A", "0102030405060708090A0B00") (by decide),
    h.2.2 (by decide) ("A1000001000000000000001A", "0102030405060708090A0B00")
      (by decide) ("A1000001000000000000001A", "0102030405060708090A0B00") (by decide)⟩

/-- Counterexample for C6 as stated: on a document that does not contain
the old identifiers (here the empty document), the engine can mint a
replacement identical to one of the old identifiers, so the new set is not
disjoint from the old set. -/
theorem replacement_collides_counterexample :
    ("A1000001000000000000001A", "A1000001000000000000001A") ∈
      (generate_replacement_uuids "" collidingEntropy).getD [] ∧
    ("A1000001000000000000001A" : String) ∈ knownCollisionOlds := by
  refine ⟨by decide, by decide⟩

/-- Claim C7: the automatic collision detector reports exactly the
identifiers whose occurrence count in the scan exceeds two, each mapped to
that count; an identifier occurring once or twice is never reported. -/
theorem detect_collisions_iff (content : String) (u : String) (k : Nat) :
    (u, k) ∈ detect_collisions content ↔
      2 < (findall24 content).count u ∧ k = (findall24 content).count u := by
  unfold detect_collisions
  rw [List.mem_filterMap]
  constructor
  · rintro ⟨a, _, hfa⟩
    split at hfa
    · rename_i hgt
      cases hfa
      exact ⟨hgt, rfl⟩
    · cases hfa
  · rintro ⟨h2, hk⟩
    refine ⟨u, ?_, ?_⟩
    · rw [List.mem_dedup]
      by_contra hu
      rw [List.count_eq_zero_of_not_mem hu] at h2
      omega
    · rw [if_pos h2, hk]

/-- Claim C8: a successful `generate_unique_uuid_set(n, existing)` call
(on 12-byte entropy chunks, as `secrets.token_bytes(12)` supplies) returns
exactly `n` pairwise-distinct identifiers, each a 24-character
uppercase-hexadecimal token and none a member of `existing`. -/
theorem mint_contract (count : Nat) (existing : List String)
    (entropy : List (List Nat)) (res : List String)
    (h : generate_unique_uuid_set count existing entropy = some res)
    (hb : ∀ b ∈ entropy, b.length = 12) :
    res.length = count ∧ res.Nodup ∧
      ∀ u ∈ res, u ∉ existing ∧ u.length = 24 ∧ u.data.all isHexUp = true := by
  exact genGo_spec (fun u => u.length = 24 ∧ u.data.all isHexUp = true)
    count existing entropy [] res h List.nodup_nil (by simp) (by simp)
    (fun b hbmem => generate_uuid_shape b (hb b hbmem))

/-- Witness for C8: minting two tokens against a one-element `existing`
set; the first entropy chunk collides with `existing` and is skipped. -/
theorem mint_contract_witness :
    (["000000000000000000000001", "000000000000000000000002"] : List String).length = 2 ∧
    ("000000000000000000000001" : String) ∉ (["000000000000000000000000"] : List String) ∧
    ("000000000000000000000001" : String).length = 24 := by
  have h := mint_contract 2 ["000000000000000000000000"] mintEntropy
    ["000000000000000000000001", "000000000000000000000002"] (by decide) (by decide)
  exact ⟨h.1, (h.2.2 _ (by decide)).1, (h.2.2 _ (by decide)).2.1⟩

/-- Claim C9 (amended): each edit step of `fix_infoplist_conflict` is a
no-op — not an error — on any document from which its target text is
absent; consequently applying a step twice equals applying it once
whenever the target is absent from the once-edited result.  (Unconditional
idempotence fails: see the counterexample, where step 4's replacement text
contains its own target.) -/
theorem plistStep1_noop (t : String)
    (h : pyContainsL plistBuildFileLine.data t.data = false) : plistStep1 t = t := by
  unfold plistStep1
  rw [if_neg (by simp [h])]

theorem plistStep2_noop (t : String)
    (h : pyContainsL plistResourceLine.data t.data = false) : plistStep2 t = t := by
  unfold plistStep2
  rw [if_neg (by simp [h])]

theorem plistStep3_noop (t : String)
    (h : pyContainsL genPlistYes.data t.data = false) : plistStep3 t = t := by
  unfold plistStep3
  rw [pyReplaceL_id _ _ _ h, mk_data]

theorem plistStep4_noop (t : String)
    (h : pyContainsL genPlistNo.data t.data = false) : plistStep4 t = t := by
  unfold plistStep4
  rw [pyReplaceL_id _ _ _ h, mk_data]

theorem plist_steps_noop (t : String) :
    (pyContainsL plistBuildFileLine.data t.data = false → plistStep1 t = t) ∧
    (pyContainsL plistResourceLine.data t.data = false → plistStep2 t = t) ∧
    (pyContainsL genPlistYes.data t.data = false → plistStep3 t = t) ∧
    (pyContainsL genPlistNo.data t.data = false → plistStep4 t = t) ∧
    (pyContainsL plistBuildFileLine.data (plistStep1 t).data = false →
      plistStep1 (plistStep1 t) = plistStep1 t) ∧
    (pyContainsL plistResourceLine.data (plistStep2 t).data = false →
      plistStep2 (plistStep2 t) = plistStep2 t) ∧
    (pyContainsL genPlistYes.data (plistStep3 t).data = false →
      plistStep3 (plistStep3 t) = plistStep3 t) ∧
    (pyContainsL genPlistNo.data (plistStep4 t).data = false →
      plistStep4 (plistStep4 t) = plistStep4 t) := by
  exact ⟨plistStep1_noop t, plistStep2_noop t, plistStep3_noop t, plistStep4_noop t,
    plistStep1_noop (plistStep1 t), plistStep2_noop (plistStep2 t),
    plistStep3_noop (plistStep3 t), plistStep4_noop (plistStep4 t)⟩

/-- Counterexample for C9 as stated: step 4's replacement text contains
its own target, so on a document holding the target (here the target
itself) a second application inserts a second `INFOPLIST_FILE` line — the
transform is not idempotent. -/
theorem plist_step4_not_idempotent :
    plistStep4 (plistStep4 genPlistNo) ≠ plistStep4 genPlistNo := by
  decide

end Stream2Proof
